import Mathlib

/-!
Shallow embedding of the extinction-map engine of `src/temp/sims/photUtils/EBV.py`
(classes `EBVmap` and `EBVbase`).  Pixel grids are lists of rows of rationals
(exact arithmetic standing for the floating-point values); numpy integer
truncation (`astype(int)`) and Python sequence indexing (negative wrap-around,
out-of-range error) are modelled explicitly.  The sky-to-pixel projection,
which uses trigonometric functions, is embedded over the reals.
-/

namespace EBV

/-- Model of the state an `EBVmap` object holds after `readMapFits`:
the pixel grid (`data`, with `nr` rows and `nc` columns) and the WCS /
projection header fields.  Header values are rationals (exact stand-ins for
the floats the FITS header holds). -/
structure EBVmap where
  data : List (List ℚ)
  nr : ℕ
  nc : ℕ
  cd11 : ℚ
  cd22 : ℚ
  cd12 : ℚ
  cd21 : ℚ
  crpix1 : ℚ
  crval1 : ℚ
  crpix2 : ℚ
  crval2 : ℚ
  nsgp : ℚ
  scale : ℚ
  lonpole : ℚ
deriving DecidableEq, Repr

/-- Model of a FITS file as the opaque raster reader exposes it: a 2-D numeric
array and a header key/value mapping (`astropy.io.fits` hdulist[0]). -/
structure FitsFile where
  data : List (List ℚ)
  header : String → Option ℚ

/-- Source `interp1D(z1, z2, offset)`: `(z2 - z1) * offset + z1`. -/
def interp1D (z1 z2 offset : ℚ) : ℚ :=
  (z2 - z1) * offset + z1

/-- numpy `astype(int)`: truncation toward zero. -/
def trunc (q : ℚ) : ℤ :=
  if 0 ≤ q then ⌊q⌋ else ⌈q⌉

/-- Python sequence indexing `l[i]` for a (possibly negative) integer index:
indices in `[0, len)` read directly, indices in `[-len, 0)` wrap around, and
anything else is an IndexError (modelled as `none`). -/
def pyGet {α : Type} (l : List α) (i : ℤ) : Option α :=
  if 0 ≤ i then l[i.toNat]?
  else if 0 ≤ i + l.length then l[(i + l.length).toNat]? else none

/-- Python `self.data[ii][jj]`: row then column lookup. -/
def getPix (data : List (List ℚ)) (i j : ℤ) : Option ℚ :=
  (pyGet data i).bind fun row => pyGet row j

/-- Interpolation window of `EBVmap.generateEbv` along one axis of extent `n`
(source lines 121-135): the rounded index `trunc (t + 0.5)` clamped above by
`n - 2`, the high index one past it, and the fractional offset
`t - iLow`.  Returns `(iLow, iHigh, d)`. -/
def interpWindow (n : ℕ) (t : ℚ) : ℤ × ℤ × ℚ :=
  let i := trunc (t + 1/2)
  let iLow := min i ((n : ℤ) - 2)
  (iLow, iLow + 1, t - (iLow : ℚ))

/-- Pixel-sampling stage of `EBVmap.generateEbv` for one point `(x, y)` in
pixel coordinates (source lines 121-152): nearest-pixel read when
`interpolate = false`, bilinear interpolation through `interp1D` otherwise.
A grid access that Python would raise on yields `none`. -/
def samplePix (m : EBVmap) (x y : ℚ) (interpolate : Bool) : Option ℚ :=
  let ix := trunc (x + 1/2)
  let iy := trunc (y + 1/2)
  if interpolate then
    let wx := interpWindow m.nc x
    let wy := interpWindow m.nr y
    match getPix m.data wy.1 wx.1, getPix m.data wy.1 wx.2.1,
          getPix m.data wy.2.1 wx.1, getPix m.data wy.2.1 wx.2.1 with
    | some z11, some z12, some z21, some z22 =>
        some (interp1D (interp1D z11 z12 wx.2.2) (interp1D z21 z22 wx.2.2) wy.2.2)
    | _, _, _, _ => none
  else
    getPix m.data iy ix

/-- Source `EBVmap.readMapFits`: reads the grid and the required header
fields; a missing required key is a KeyError (modelled as `Except.error`).
The off-diagonal coefficients `cd12`, `cd21` are set to `0` and never read
from the header (source lines 45-46). -/
def readMapFits (f : FitsFile) : Except String EBVmap :=
  match f.header "CD1_1", f.header "CD2_2", f.header "CRPIX1", f.header "CRVAL1",
        f.header "CRPIX2", f.header "CRVAL2", f.header "LAM_NSGP", f.header "LAM_SCAL",
        f.header "LONPOLE" with
  | some cd11, some cd22, some crpix1, some crval1, some crpix2, some crval2,
    some nsgp, some scale, some lonpole =>
      .ok { data := f.data
            nr := f.data.length
            nc := (f.data.headD []).length
            cd11 := cd11, cd22 := cd22, cd12 := 0, cd21 := 0
            crpix1 := crpix1, crval1 := crval1, crpix2 := crpix2, crval2 := crval2
            nsgp := nsgp, scale := scale, lonpole := lonpole }
  | _, _, _, _, _, _, _, _, _ => .error "KeyError"

/-- Projection-plane coordinates `(xr, yr)` of `EBVmap.xyFromSky`
(source lines 74-97): pole rotation, reduction of `phi` into `[0, 360)`,
the zenithal radius `Rtheta`, and the rotation into plane coordinates. -/
noncomputable def projPlane (m : EBVmap) (gLon gLat : ℝ) : ℝ × ℝ :=
  let rad2deg : ℝ := 180 / Real.pi
  let tp : ℝ × ℝ :=
    if ((m.crval2 : ℝ) > 89.9999) then
      (gLat * rad2deg, gLon * rad2deg + 180 + (m.lonpole : ℝ) - (m.crval1 : ℝ))
    else if ((m.crval2 : ℝ) < -89.9999) then
      (-gLat * rad2deg, (m.lonpole : ℝ) + (m.crval1 : ℝ) - gLon * rad2deg)
    else
      (gLat * rad2deg, gLon * rad2deg + 180 + (m.lonpole : ℝ) - (m.crval1 : ℝ))
  let phi : ℝ := tp.2 - 360 * (⌊tp.2 / 360⌋ : ℝ)
  let Rtheta : ℝ := 2 * rad2deg * Real.sin ((1/2 / rad2deg) * (90 - tp.1))
  (Rtheta * Real.sin (phi / rad2deg), -Rtheta * Real.cos (phi / rad2deg))

/-- Source `EBVmap.xyFromSky` (lines 59-104): the projection-plane
coordinates pushed through the inverted 2x2 linear transform and shifted by
`crpix - 1`. -/
noncomputable def xyFromSky (m : EBVmap) (gLon gLat : ℝ) : ℝ × ℝ :=
  let pr := projPlane m gLon gLat
  let denom : ℝ := (m.cd11 : ℝ) * (m.cd22 : ℝ) - (m.cd12 : ℝ) * (m.cd21 : ℝ)
  (((m.cd22 : ℝ) * pr.1 - (m.cd12 : ℝ) * pr.2) / denom + ((m.crpix1 : ℝ) - 1),
   ((m.cd11 : ℝ) * pr.2 - (m.cd21 : ℝ) * pr.1) / denom + ((m.crpix2 : ℝ) - 1))

/-- State of the class-level map cache of `EBVbase`: the dictionary
`_ebv_map_cache` (an association list keyed by file name) together with a
counter of how many times the backing resource was opened
(`fits.open` attempts), the observable for the at-most-one-load property. -/
structure CacheState where
  cache : List (String × EBVmap)
  loadCount : ℕ
deriving DecidableEq, Repr

/-- Python `dict` lookup `file_name in self._ebv_map_cache` /
`self._ebv_map_cache[file_name]` on the association-list model of the
cache. -/
def lookupCache (c : List (String × EBVmap)) (k : String) : Option EBVmap :=
  match c with
  | [] => none
  | p :: t => if p.1 = k then some p.2 else lookupCache t k

/-- Source `EBVbase._load_ebv_map` (lines 224-236) over an explicit file
system `fs` (what `fits.open` + header reads would yield per path, `none`
standing for an unopenable path): a cache hit returns the stored map and
leaves the state untouched; a miss opens and parses the file, and only on
success inserts the new entry.  Errors propagate with the cache unchanged. -/
def load_ebv_map (fs : String → Option FitsFile) (st : CacheState)
    (file_name : String) : Except String EBVmap × CacheState :=
  match lookupCache st.cache file_name with
  | some m => (.ok m, st)
  | none =>
    match fs file_name with
    | none => (.error "NotFound", { st with loadCount := st.loadCount + 1 })
    | some f =>
      match readMapFits f with
      | .error e => (.error e, { st with loadCount := st.loadCount + 1 })
      | .ok m =>
        (.ok m, { cache := st.cache ++ [(file_name, m)], loadCount := st.loadCount + 1 })

/-- Fold step of the partition `reduce` in `EBVbase.calculateEbv`
(source lines 314-315): an enumerated latitude `(i, lat)` appends `i` to the
north list when `lat > 0` and to the south list otherwise. -/
def partitionStep (acc : List ℕ × List ℕ) (y : ℕ × ℚ) : List ℕ × List ℕ :=
  if 0 < y.2 then (acc.1 ++ [y.1], acc.2) else (acc.1, acc.2 ++ [y.1])

/-- The `reduce` of `EBVbase.calculateEbv` producing `(inorth, isouth)` from
the latitudes. -/
def partitionHemis (lats : List ℚ) : List ℕ × List ℕ :=
  lats.enum.foldl partitionStep ([], [])

/-- The scatter loops `for (i, ee) in zip(idx, ebvBucket): ebv[i] = ee`
(source lines 323-327). -/
def scatter (l : List ℚ) (ps : List (ℕ × ℚ)) : List ℚ :=
  ps.foldl (fun acc p => acc.set p.1 p.2) l

/-- Routing section of `EBVbase.calculateEbv` (source lines 304-329) over a
batch of `(lon, lat)` pairs, with the two hemisphere maps abstracted by
their per-point query functions `qn`, `qs` (what `northMap.generateEbv` /
`southMap.generateEbv` compute per coordinate): `ebv = None` for an empty
batch, else zeros, partition by latitude sign, per-bucket queries, and the
two scatter passes writing results back at the stored original indices. -/
def routeEbv (qn qs : ℚ × ℚ → ℚ) (coords : List (ℚ × ℚ)) : Option (List ℚ) :=
  if 0 < coords.length then
    let lats := coords.map Prod.snd
    let p := partitionHemis lats
    let nSet := p.1.map (fun i => coords.getD i (0, 0))
    let sSet := p.2.map (fun i => coords.getD i (0, 0))
    let ebvNorth := nSet.map qn
    let ebvSouth := sSet.map qs
    let ebv0 : List ℚ := List.replicate coords.length 0
    some (scatter (scatter ebv0 (p.1.zip ebvNorth)) (p.2.zip ebvSouth))
  else none

/-- Instance state of an `EBVbase` object: the attributes `ebvMapNorth`,
`ebvMapSouth` and the shared cache. -/
structure EbvBaseState where
  ebvMapNorth : Option EBVmap
  ebvMapSouth : Option EBVmap
  cacheState : CacheState
deriving DecidableEq, Repr

/-- Map-resolution step of `EBVbase.calculateEbv` (source lines 292-302 with
`load_ebvMapNorth` / `load_ebvMapSouth`): a caller-supplied map is used as
is; otherwise the stored attribute; otherwise the map is loaded through the
cache (which may fail) and stored.  Returns the resolved map (or the error),
the new attribute value and the new cache state. -/
def resolveMap (fs : String → Option FitsFile) (st : CacheState)
    (stored : Option EBVmap) (path : String) (arg : Option EBVmap) :
    Except String EBVmap × Option EBVmap × CacheState :=
  match arg with
  | some m => (.ok m, stored, st)
  | none =>
    match stored with
    | some m => (.ok m, stored, st)
    | none =>
      match load_ebv_map fs st path with
      | (.ok m, st') => (.ok m, some m, st')
      | (.error e, st') => (.error e, stored, st')

/-- Source `EBVbase.calculateEbv` on the galactic-coordinates path
(lines 292-329): resolve the north then the south map (loading through the
shared cache when needed, errors propagating), then run the routing section
on a non-empty batch, or return `None` (here `none`) for an empty one.
The last component counts the `generateEbv` batch-query invocations
(two on the non-empty path, zero otherwise), the observable for the
no-query claims. -/
def calculateEbv (fs : String → Option FitsFile) (q : EBVmap → ℚ × ℚ → ℚ)
    (northPath southPath : String) (st : EbvBaseState)
    (coords : List (ℚ × ℚ)) (northMapArg southMapArg : Option EBVmap) :
    Except String (Option (List ℚ)) × EbvBaseState × ℕ :=
  match resolveMap fs st.cacheState st.ebvMapNorth northPath northMapArg with
  | (.error e, n', cs') => (.error e, ⟨n', st.ebvMapSouth, cs'⟩, 0)
  | (.ok nm, n', cs') =>
    match resolveMap fs cs' st.ebvMapSouth southPath southMapArg with
    | (.error e, s', cs'') => (.error e, ⟨n', s', cs''⟩, 0)
    | (.ok sm, s', cs'') =>
      if 0 < coords.length then
        (.ok (routeEbv (q nm) (q sm) coords), ⟨n', s', cs''⟩, 2)
      else
        (.ok none, ⟨n', s', cs''⟩, 0)

/-- The header keys `readMapFits` requires (source lines 43-57); `CD1_2` and
`CD2_1` are not among them. -/
def requiredKeys : List String :=
  ["CD1_1", "CD2_2", "CRPIX1", "CRVAL1", "CRPIX2", "CRVAL2",
   "LAM_NSGP", "LAM_SCAL", "LONPOLE"]

/-! ### Concrete fixtures used by witnesses and counterexamples -/

/-- Header of a synthetic 4-value map with identity transform, reference
pixel `(2, 2)`, reference sky position `(0, 90)` and `lonpole = 180`. -/
def hdr0 : String → Option ℚ := fun k =>
  if k = "CD1_1" then some 1 else if k = "CD2_2" then some 1 else
  if k = "CRPIX1" then some 2 else if k = "CRVAL1" then some 0 else
  if k = "CRPIX2" then some 2 else if k = "CRVAL2" then some 90 else
  if k = "LAM_NSGP" then some 1 else if k = "LAM_SCAL" then some 1 else
  if k = "LONPOLE" then some 180 else none

/-- A concrete well-formed FITS file. -/
def ff0 : FitsFile := ⟨[[1, 2], [3, 4]], hdr0⟩

/-- The map `readMapFits ff0` produces. -/
def map0 : EBVmap :=
  { data := [[1, 2], [3, 4]], nr := 2, nc := 2
    cd11 := 1, cd22 := 1, cd12 := 0, cd21 := 0
    crpix1 := 2, crval1 := 0, crpix2 := 2, crval2 := 90
    nsgp := 1, scale := 1, lonpole := 180 }

/-- A file system exposing `ff0` under the paths "n" and "s". -/
def fs0 : String → Option FitsFile := fun p =>
  if p = "n" then some ff0 else if p = "s" then some ff0 else none

/-- A file system with no readable path. -/
def fsEmpty : String → Option FitsFile := fun _ => none

/-! ### Cache lemmas -/

theorem lookupCache_append_of_none {a : List (String × EBVmap)}
    (b : List (String × EBVmap)) {k : String}
    (h : lookupCache a k = none) : lookupCache (a ++ b) k = lookupCache b k := by
  induction a with
  | nil => rfl
  | cons p t ih =>
    by_cases hp : p.1 = k
    · simp [lookupCache, hp] at h
    · simp only [lookupCache, hp, if_false] at h ⊢
      exact ih h

/-- C7: resolving a path through the cache twice returns the identical cached
map on the second call with no re-read: the second call returns the same map
and leaves the whole cache state (entries and open count) unchanged, and the
first call opens the backing resource at most once. -/
theorem load_ebv_map_cached_twice (fs : String → Option FitsFile)
    (st : CacheState) (file_name : String) (m : EBVmap) (st' : CacheState)
    (h : load_ebv_map fs st file_name = (.ok m, st')) :
    load_ebv_map fs st' file_name = (.ok m, st') ∧
      st'.loadCount ≤ st.loadCount + 1 := by
  unfold load_ebv_map at h
  split at h
  next m0 hc =>
    rw [Prod.mk.injEq] at h
    obtain ⟨h1, rfl⟩ := h
    rw [Except.ok.injEq] at h1
    subst h1
    unfold load_ebv_map
    rw [hc]
    exact ⟨rfl, Nat.le_add_right _ _⟩
  next hc =>
    split at h
    next hf => simp at h
    next f hf =>
      split at h
      next e hr => simp at h
      next m2 hr =>
        rw [Prod.mk.injEq] at h
        obtain ⟨h1, rfl⟩ := h
        rw [Except.ok.injEq] at h1
        subst h1
        have hl : lookupCache (st.cache ++ [(file_name, m2)]) file_name = some m2 := by
          rw [lookupCache_append_of_none _ hc]
          simp [lookupCache]
        unfold load_ebv_map
        dsimp only
        rw [hl]
        exact ⟨rfl, le_rfl⟩

/-- C7 witness: loading the concrete path "n" into the empty cache, then
resolving it again, returns the identical map with the state unchanged. -/
theorem load_ebv_map_cached_twice_witness :
    load_ebv_map fs0 ⟨[], 0⟩ "n" = (.ok map0, ⟨[("n", map0)], 1⟩) ∧
      load_ebv_map fs0 ⟨[("n", map0)], 1⟩ "n" = (.ok map0, ⟨[("n", map0)], 1⟩) ∧
      (⟨[("n", map0)], 1⟩ : CacheState).loadCount ≤ (⟨[], 0⟩ : CacheState).loadCount + 1 :=
  ⟨by rfl,
   (load_ebv_map_cached_twice fs0 ⟨[], 0⟩ "n" map0 ⟨[("n", map0)], 1⟩ (by rfl)).1,
   (load_ebv_map_cached_twice fs0 ⟨[], 0⟩ "n" map0 ⟨[("n", map0)], 1⟩ (by rfl)).2⟩

/-- C8: a failed load propagates the error and leaves the shared cache exactly
as it was: no entry (partial or otherwise) is inserted for the path, and a
subsequent resolution attempt for the same path against a now-readable file
system succeeds. -/
theorem load_ebv_map_error_cache (fs : String → Option FitsFile)
    (st : CacheState) (file_name : String) (e : String) (st' : CacheState)
    (h : load_ebv_map fs st file_name = (.error e, st')) :
    st'.cache = st.cache ∧
      ∀ (fs' : String → Option FitsFile) (f : FitsFile) (m : EBVmap),
        fs' file_name = some f → readMapFits f = .ok m →
        (load_ebv_map fs' st' file_name).1 = .ok m := by
  unfold load_ebv_map at h
  split at h
  next m0 hc => simp at h
  next hc =>
    have hcache : st'.cache = st.cache ∧ lookupCache st'.cache file_name = none := by
      split at h
      next hf =>
        rw [Prod.mk.injEq] at h
        obtain ⟨-, rfl⟩ := h
        exact ⟨rfl, hc⟩
      next f hf =>
        split at h
        next e2 hr =>
          rw [Prod.mk.injEq] at h
          obtain ⟨-, rfl⟩ := h
          exact ⟨rfl, hc⟩
        next m2 hr => simp at h
    refine ⟨hcache.1, ?_⟩
    intro fs' f m hf' hm
    unfold load_ebv_map
    simp only [hcache.2, hf', hm]

/-- C8 witness: loading "n" from an unreadable file system fails with the
cache left empty, and the subsequent attempt against `fs0` succeeds. -/
theorem load_ebv_map_error_cache_witness :
    load_ebv_map fsEmpty ⟨[], 0⟩ "n" = (.error "NotFound", ⟨[], 1⟩) ∧
      (⟨[], 1⟩ : CacheState).cache = (⟨[], 0⟩ : CacheState).cache ∧
      (load_ebv_map fs0 ⟨[], 1⟩ "n").1 = .ok map0 :=
  ⟨by rfl,
   (load_ebv_map_error_cache fsEmpty ⟨[], 0⟩ "n" "NotFound" ⟨[], 1⟩ (by rfl)).1,
   (load_ebv_map_error_cache fsEmpty ⟨[], 0⟩ "n" "NotFound" ⟨[], 1⟩ (by rfl)).2
     fs0 ff0 map0 (by rfl) (by rfl)⟩

/-- C10: every successfully loaded map has `cd12 = cd21 = 0` (the off-diagonal
keys are never read, and their absence from a header never fails a load:
the result depends only on the data and the nine required keys), so the
inverse transform in `xyFromSky` reduces to `x = xr / cd11 + (crpix1 - 1)`
and `y = yr / cd22 + (crpix2 - 1)` whenever the diagonal coefficients are
nonzero. -/
theorem readMapFits_offdiag_zero :
    (∀ (f : FitsFile) (m : EBVmap), readMapFits f = .ok m →
      m.cd12 = 0 ∧ m.cd21 = 0 ∧
        ∀ (gLon gLat : ℝ), (m.cd11 : ℝ) ≠ 0 → (m.cd22 : ℝ) ≠ 0 →
          xyFromSky m gLon gLat =
            ((projPlane m gLon gLat).1 / (m.cd11 : ℝ) + ((m.crpix1 : ℝ) - 1),
             (projPlane m gLon gLat).2 / (m.cd22 : ℝ) + ((m.crpix2 : ℝ) - 1))) ∧
    (∀ (f f' : FitsFile), f.data = f'.data →
      (∀ k ∈ requiredKeys, f.header k = f'.header k) →
      readMapFits f = readMapFits f') := by
  constructor
  · intro f m hok
    have hz : m.cd12 = 0 ∧ m.cd21 = 0 := by
      unfold readMapFits at hok
      split at hok
      · rw [Except.ok.injEq] at hok
        subst hok
        exact ⟨rfl, rfl⟩
      · simp at hok
    refine ⟨hz.1, hz.2, ?_⟩
    intro gLon gLat h11 h22
    have e12 : (m.cd12 : ℝ) = 0 := by rw [hz.1]; norm_num
    have e21 : (m.cd21 : ℝ) = 0 := by rw [hz.2]; norm_num
    unfold xyFromSky
    simp only [e12, e21, zero_mul, mul_zero, sub_zero]
    rw [Prod.mk.injEq]
    constructor
    · rw [mul_comm ((m.cd11 : ℝ)) ((m.cd22 : ℝ)), mul_div_mul_left _ _ h22]
    · rw [mul_div_mul_left _ _ h11]
  · intro f f' hd hk
    unfold readMapFits
    rw [hd,
      hk "CD1_1" (by simp [requiredKeys]), hk "CD2_2" (by simp [requiredKeys]),
      hk "CRPIX1" (by simp [requiredKeys]), hk "CRVAL1" (by simp [requiredKeys]),
      hk "CRPIX2" (by simp [requiredKeys]), hk "CRVAL2" (by simp [requiredKeys]),
      hk "LAM_NSGP" (by simp [requiredKeys]), hk "LAM_SCAL" (by simp [requiredKeys]),
      hk "LONPOLE" (by simp [requiredKeys])]

/-- C10 witness: the reduction evaluated on the concrete loaded map `map0`
(whose diagonal coefficients are 1) at the sky origin. -/
theorem readMapFits_offdiag_zero_witness :
    map0.cd12 = 0 ∧ map0.cd21 = 0 ∧
      xyFromSky map0 0 0 =
        ((projPlane map0 0 0).1 / (map0.cd11 : ℝ) + ((map0.crpix1 : ℝ) - 1),
         (projPlane map0 0 0).2 / (map0.cd22 : ℝ) + ((map0.crpix2 : ℝ) - 1)) := by
  obtain ⟨h1, h2, h3⟩ := readMapFits_offdiag_zero.1 ff0 map0 (by rfl)
  exact ⟨h1, h2, h3 0 0 (by norm_num [map0]) (by norm_num [map0])⟩

/-! ### Interpolation-window claims -/

/-- C4 counterexample: at `x = 7/10` on a 4-column grid, the low index the
code computes is `min (trunc (x + 1/2)) (cols - 2) = 1`, not the claimed
`min ⌊x⌋ (cols - 2) = 0`. -/
theorem interpWindow_floor_counterexample :
    (interpWindow 4 (7/10)).1 ≠ min ⌊(7/10 : ℚ)⌋ ((4 : ℤ) - 2) := by
  have hf1 : ⌊(7/10 + 1/2 : ℚ)⌋ = 1 := by norm_num
  have hf2 : ⌊(7/10 : ℚ)⌋ = 0 := by norm_num
  simp only [interpWindow, trunc, if_pos (by norm_num : (0:ℚ) ≤ 7/10 + 1/2), hf1, hf2]
  omega

/-- C4 amended: the interpolation window on a `rows x cols` grid is
`ixLow = min (trunc (x + 1/2)) (cols - 2)` (nearest-integer rounding via
truncation of `x + 0.5`, not `⌊x⌋`), `ixHigh = ixLow + 1`,
`dx = x - ixLow`, and symmetrically for rows; the high index never exceeds
`cols - 1` (resp. `rows - 1`). -/
theorem interpWindow_spec (rows cols : ℕ) (x y : ℚ) :
    (interpWindow cols x).1 = min (trunc (x + 1/2)) ((cols : ℤ) - 2) ∧
    (interpWindow cols x).2.1 = (interpWindow cols x).1 + 1 ∧
    (interpWindow cols x).2.2 = x - (((interpWindow cols x).1 : ℤ) : ℚ) ∧
    (interpWindow cols x).2.1 ≤ (cols : ℤ) - 1 ∧
    (interpWindow rows y).1 = min (trunc (y + 1/2)) ((rows : ℤ) - 2) ∧
    (interpWindow rows y).2.1 = (interpWindow rows y).1 + 1 ∧
    (interpWindow rows y).2.2 = y - (((interpWindow rows y).1 : ℤ) : ℚ) ∧
    (interpWindow rows y).2.1 ≤ (rows : ℤ) - 1 := by
  refine ⟨rfl, rfl, rfl, ?_, rfl, rfl, rfl, ?_⟩ <;>
    · simp only [interpWindow]
      omega

/-! ### Hemisphere-partition claims -/

theorem foldl_partitionStep (l : List (ℕ × ℚ)) (a b : List ℕ) :
    l.foldl partitionStep (a, b) =
      (a ++ (l.filter fun y => decide (0 < y.2)).map Prod.fst,
       b ++ (l.filter fun y => !decide (0 < y.2)).map Prod.fst) := by
  induction l generalizing a b with
  | nil => simp
  | cons y t ih =>
    by_cases h : 0 < y.2 <;>
      simp [partitionStep, h, ih, List.filter_cons]

theorem partitionHemis_mem (lats : List ℚ) (i : ℕ) (h : i < lats.length) :
    (i ∈ (partitionHemis lats).1 ↔ 0 < lats.getD i 0) ∧
    (i ∈ (partitionHemis lats).2 ↔ lats.getD i 0 ≤ 0) := by
  unfold partitionHemis
  rw [foldl_partitionStep lats.enum [] []]
  simp only [List.nil_append]
  have hget : lats.getD i 0 = lats[i] := List.getD_eq_getElem lats 0 h
  have key : ∀ (p : ℚ → Bool),
      (i ∈ (lats.enum.filter fun y => p y.2).map Prod.fst ↔ p lats[i] = true) := by
    intro p
    constructor
    · intro hi
      obtain ⟨y, hy, hfst⟩ := List.mem_map.mp hi
      obtain ⟨hmem, hp⟩ := List.mem_filter.mp hy
      have hy2 : lats[y.1]? = some y.2 := List.mem_enum_iff_getElem?.mp hmem
      rw [hfst, List.getElem?_eq_getElem h, Option.some.injEq] at hy2
      rw [hy2]
      exact hp
    · intro hp
      exact List.mem_map.mpr ⟨(i, lats[i]),
        List.mem_filter.mpr
          ⟨List.mem_enum_iff_getElem?.mpr (List.getElem?_eq_getElem h), hp⟩, rfl⟩
  constructor
  · rw [key (fun q => decide (0 < q)), hget]
    simp
  · rw [key (fun q => !decide (0 < q)), hget]
    simp [not_lt]

theorem partitionHemis_nodup (lats : List ℚ) :
    (partitionHemis lats).1.Nodup ∧ (partitionHemis lats).2.Nodup := by
  unfold partitionHemis
  rw [foldl_partitionStep lats.enum [] []]
  simp only [List.nil_append]
  constructor <;>
    exact ((List.filter_sublist _).map Prod.fst).nodup
      (by rw [List.enum_map_fst]; exact List.nodup_range _)

/-- C1: `calculateEbv` classifies each coordinate index by the sign of its
galactic latitude: an index with strictly positive latitude lands in the
north bucket (routed to the north map's query) and an index with latitude
`<= 0` (zero included) lands in the south bucket. -/
theorem calculateEbv_hemisphere (coords : List (ℚ × ℚ)) (i : ℕ)
    (h : i < coords.length) :
    (i ∈ (partitionHemis (coords.map Prod.snd)).1 ↔ 0 < (coords.getD i (0, 0)).2) ∧
    (i ∈ (partitionHemis (coords.map Prod.snd)).2 ↔ (coords.getD i (0, 0)).2 ≤ 0) := by
  have hlen : i < (coords.map Prod.snd).length := by simpa using h
  have hmem := partitionHemis_mem (coords.map Prod.snd) i hlen
  have hgd : (coords.map Prod.snd).getD i 0 = (coords.getD i (0, 0)).2 := by
    rw [List.getD_eq_getElem _ _ hlen, List.getD_eq_getElem _ _ h, List.getElem_map]
  rw [hgd] at hmem
  exact hmem

/-- C1 witness: in the batch `[(1, 2), (3, -1), (5, 0)]` the index 2 (latitude
exactly 0) is in the south bucket and not in the north bucket. -/
theorem calculateEbv_hemisphere_witness :
    ((2 : ℕ) < ([((1:ℚ), (2:ℚ)), (3, -1), (5, 0)] : List (ℚ × ℚ)).length) ∧
    ((2 ∈ (partitionHemis (([((1:ℚ), (2:ℚ)), (3, -1), (5, 0)] : List (ℚ × ℚ)).map Prod.snd)).1 ↔
        0 < (([((1:ℚ), (2:ℚ)), (3, -1), (5, 0)] : List (ℚ × ℚ)).getD 2 (0, 0)).2) ∧
     (2 ∈ (partitionHemis (([((1:ℚ), (2:ℚ)), (3, -1), (5, 0)] : List (ℚ × ℚ)).map Prod.snd)).2 ↔
        (([((1:ℚ), (2:ℚ)), (3, -1), (5, 0)] : List (ℚ × ℚ)).getD 2 (0, 0)).2 ≤ 0)) :=
  ⟨by decide, calculateEbv_hemisphere [((1:ℚ), (2:ℚ)), (3, -1), (5, 0)] 2 (by decide)⟩

/-! ### Scatter lemmas and the order-preservation claim -/

theorem scatter_length (l : List ℚ) (ps : List (ℕ × ℚ)) :
    (scatter l ps).length = l.length := by
  induction ps generalizing l with
  | nil => rfl
  | cons p t ih =>
    show (scatter (l.set p.1 p.2) t).length = l.length
    rw [ih, List.length_set]

theorem scatter_getD_notMem (l : List ℚ) (ps : List (ℕ × ℚ)) (i : ℕ)
    (h : i ∉ ps.map Prod.fst) :
    (scatter l ps).getD i 0 = l.getD i 0 := by
  induction ps generalizing l with
  | nil => rfl
  | cons p t ih =>
    simp only [List.map_cons, List.mem_cons, not_or] at h
    show (scatter (l.set p.1 p.2) t).getD i 0 = l.getD i 0
    rw [ih _ h.2, List.getD_eq_getElem?_getD, List.getD_eq_getElem?_getD,
      List.getElem?_set_ne (Ne.symm h.1)]

theorem scatter_getD_mem (l : List ℚ) (ps : List (ℕ × ℚ)) (i : ℕ) (v : ℚ)
    (hnd : (ps.map Prod.fst).Nodup) (hmem : (i, v) ∈ ps) (hi : i < l.length) :
    (scatter l ps).getD i 0 = v := by
  induction ps generalizing l with
  | nil => simp at hmem
  | cons p t ih =>
    rw [List.map_cons, List.nodup_cons] at hnd
    rcases List.mem_cons.mp hmem with heq | hmemt
    · obtain rfl : p = (i, v) := heq.symm
      show (scatter (l.set i v) t).getD i 0 = v
      rw [scatter_getD_notMem _ _ _ hnd.1, List.getD_eq_getElem?_getD,
        List.getElem?_set_eq_of_lt _ hi]
      rfl
    · show (scatter (l.set p.1 p.2) t).getD i 0 = v
      exact ih (l.set p.1 p.2) hnd.2 hmemt (by simpa using hi)

theorem zip_self_map {α β : Type} (l : List α) (g : α → β) :
    l.zip (l.map g) = l.map fun a => (a, g a) := by
  induction l with
  | nil => rfl
  | cons a t ih => simp [ih]

/-- C2: `calculateEbv`'s routing returns `None` exactly on the empty batch,
and on a batch of `n` coordinates returns exactly `n` values whose `i`-th
entry is the correct hemisphere query of input coordinate `i`: partitioning
into buckets and scattering back by stored original index is the identity on
ordering. -/
theorem routeEbv_order (qn qs : ℚ × ℚ → ℚ) (coords : List (ℚ × ℚ)) :
    (routeEbv qn qs coords = none ↔ coords = []) ∧
    ∀ l, routeEbv qn qs coords = some l →
      l.length = coords.length ∧
      ∀ i, i < coords.length →
        l.getD i 0 =
          (if 0 < (coords.getD i (0, 0)).2 then qn (coords.getD i (0, 0))
           else qs (coords.getD i (0, 0))) := by
  constructor
  · constructor
    · intro hn
      by_contra hne
      have hpos : 0 < coords.length := List.length_pos.mpr hne
      unfold routeEbv at hn
      rw [if_pos hpos] at hn
      simp at hn
    · intro he
      subst he
      rfl
  · intro l hl
    by_cases hpos : 0 < coords.length
    · unfold routeEbv at hl
      rw [if_pos hpos, Option.some.injEq] at hl
      subst hl
      set c : ℕ → ℚ × ℚ := fun i => coords.getD i (0, 0) with hc
      set lats := coords.map Prod.snd with hlats
      set pN := (partitionHemis lats).1 with hpN
      set pS := (partitionHemis lats).2 with hpS
      have hzipN : pN.zip ((pN.map c).map qn) = pN.map fun a => (a, qn (c a)) := by
        rw [List.map_map, zip_self_map]
        rfl
      have hzipS : pS.zip ((pS.map c).map qs) = pS.map fun a => (a, qs (c a)) := by
        rw [List.map_map, zip_self_map]
        rfl
      have hfstN : (pN.map fun a => (a, qn (c a))).map Prod.fst = pN := by
        rw [List.map_map]
        exact List.map_id pN
      have hfstS : (pS.map fun a => (a, qs (c a))).map Prod.fst = pS := by
        rw [List.map_map]
        exact List.map_id pS
      have hlen0 : (List.replicate coords.length (0 : ℚ)).length = coords.length :=
        List.length_replicate _ _
      constructor
      · rw [scatter_length, scatter_length, hlen0]
      · intro i hi
        have hil : i < lats.length := by rw [hlats, List.length_map]; exact hi
        have hgd : lats.getD i 0 = (coords.getD i (0, 0)).2 := by
          rw [hlats]
          rw [List.getD_eq_getElem _ _ (by simpa using hi), List.getD_eq_getElem _ _ hi]
          exact List.getElem_map _
        have hmem := partitionHemis_mem lats i hil
        rw [hgd] at hmem
        rw [← hpN, ← hpS] at hmem
        rw [hzipN, hzipS]
        by_cases hlat : 0 < (coords.getD i (0, 0)).2
        · have hiN : i ∈ pN := hmem.1.mpr hlat
          have hiS : i ∉ pS := fun hin => absurd hlat (not_lt.mpr (hmem.2.mp hin))
          rw [if_pos hlat]
          rw [scatter_getD_notMem _ _ _ (by rw [hfstS]; exact hiS)]
          exact scatter_getD_mem _ _ _ _
            (by rw [hfstN, hpN]; exact (partitionHemis_nodup lats).1)
            (List.mem_map.mpr ⟨i, hiN, by rw [hc]⟩)
            (by rw [hlen0]; exact hi)
        · have hiS : i ∈ pS := hmem.2.mpr (not_lt.mp hlat)
          rw [if_neg hlat]
          exact scatter_getD_mem _ _ _ _
            (by rw [hfstS, hpS]; exact (partitionHemis_nodup lats).2)
            (List.mem_map.mpr ⟨i, hiS, by rw [hc]⟩)
            (by rw [scatter_length, hlen0]; exact hi)
    · unfold routeEbv at hl
      rw [if_neg hpos] at hl
      simp at hl

/-- C2 witness: on the concrete batch `[(1, 2), (3, -1)]` with query
functions `Prod.fst` (north) and `Prod.snd` (south), routing returns the two
results in input order. -/
theorem routeEbv_order_witness :
    routeEbv Prod.fst Prod.snd [((1:ℚ), (2:ℚ)), (3, -1)] = some [1, -1] ∧
      ([(1:ℚ), (-1:ℚ)] : List ℚ).length = ([((1:ℚ), (2:ℚ)), (3, -1)] : List (ℚ × ℚ)).length ∧
      ([(1:ℚ), (-1:ℚ)] : List ℚ).getD 1 0 =
        (if 0 < (([((1:ℚ), (2:ℚ)), (3, -1)] : List (ℚ × ℚ)).getD 1 (0, 0)).2
         then Prod.fst (([((1:ℚ), (2:ℚ)), (3, -1)] : List (ℚ × ℚ)).getD 1 (0, 0))
         else Prod.snd (([((1:ℚ), (2:ℚ)), (3, -1)] : List (ℚ × ℚ)).getD 1 (0, 0))) :=
  ⟨by decide,
   ((routeEbv_order Prod.fst Prod.snd [((1:ℚ), (2:ℚ)), (3, -1)]).2
       [1, -1] (by decide)).1,
   ((routeEbv_order Prod.fst Prod.snd [((1:ℚ), (2:ℚ)), (3, -1)]).2
       [1, -1] (by decide)).2 1 (by decide)⟩

/-! ### Empty-batch behaviour -/

/-- C3 counterexample: calling `calculateEbv` on an empty batch with no maps
yet resolved still loads both hemisphere maps (the resource-open count ends
at 2) even though the result is `None` and no query runs: the claim that no
map load occurs on an empty batch is false. -/
theorem calculateEbv_empty_loads_counterexample :
    (calculateEbv fs0 (fun _ p => p.1) "n" "s" ⟨none, none, ⟨[], 0⟩⟩ [] none
        none).2.1.cacheState.loadCount = 2 ∧
      (calculateEbv fs0 (fun _ p => p.1) "n" "s" ⟨none, none, ⟨[], 0⟩⟩ [] none
          none).1 = .ok none := by
  constructor <;> rfl

/-- C3 amended: an empty coordinate batch returns an empty (`None`) result (or
propagates a load error) and performs no map query (the query count is 0),
but the hemisphere maps are still resolved -- and hence possibly loaded --
before the batch-size check. -/
theorem calculateEbv_empty_no_query (fs : String → Option FitsFile)
    (q : EBVmap → ℚ × ℚ → ℚ) (northPath southPath : String)
    (st : EbvBaseState) (northMapArg southMapArg : Option EBVmap) :
    (calculateEbv fs q northPath southPath st [] northMapArg southMapArg).2.2 = 0 ∧
      ((calculateEbv fs q northPath southPath st [] northMapArg southMapArg).1 = .ok none ∨
        ∃ e, (calculateEbv fs q northPath southPath st [] northMapArg
          southMapArg).1 = .error e) := by
  unfold calculateEbv
  split
  next e n' cs' => exact ⟨rfl, Or.inr ⟨_, rfl⟩⟩
  next nm n' cs' =>
    split
    next e s' cs'' => exact ⟨rfl, Or.inr ⟨_, rfl⟩⟩
    next sm s' cs'' =>
      rw [if_neg (by simp)]
      exact ⟨rfl, Or.inl rfl⟩

/-! ### Sampling totality and clamping -/

/-- C5 counterexample: nearest-pixel sampling is not clamped: at pixel
coordinate `x = 5` on the 2x2 grid of `map0` the rounded column index 5 is
out of range and the access fails (Python raises an IndexError), so sampling
is not a total function over out-of-window coordinates. -/
theorem samplePix_not_clamped_counterexample :
    samplePix map0 5 0 false = none := by
  have h1 : trunc ((5:ℚ) + 1/2) = 5 := by norm_num [trunc]
  have h2 : trunc ((0:ℚ) + 1/2) = 0 := by norm_num [trunc]
  show getPix map0.data (trunc ((0:ℚ) + 1/2)) (trunc ((5:ℚ) + 1/2)) = none
  rw [h1, h2]
  rfl

theorem trunc_nonneg (q : ℚ) (h : -1 < q) : 0 ≤ trunc q := by
  unfold trunc
  split
  next h0 => exact Int.floor_nonneg.mpr h0
  next h0 =>
    have : (-1 : ℤ) < ⌈q⌉ := by
      rw [Int.lt_ceil]
      push_cast
      exact h
    omega

theorem pyGet_isSome_of {α : Type} (l : List α) (i : ℤ)
    (h0 : 0 ≤ i) (h1 : i < (l.length : ℤ)) :
    ∃ a, pyGet l i = some a ∧ a ∈ l := by
  unfold pyGet
  rw [if_pos h0]
  have hlt : i.toNat < l.length := by omega
  exact ⟨l[i.toNat], by rw [List.getElem?_eq_getElem hlt], List.getElem_mem hlt⟩

/-- C5 amended: clamping in `generateEbv` is partial: bilinear sampling clamps
only the high side of the window (so it is total once the rounded indices are
nonnegative, which holds for all `x, y > -3/2` on a grid with at least two
rows and columns), and nearest-pixel sampling performs no clamping at all and
is total only when the rounded indices already lie inside the grid. -/
theorem samplePix_clamping (m : EBVmap) (x y : ℚ)
    (hnr : 2 ≤ m.nr) (hnc : 2 ≤ m.nc)
    (hd : m.data.length = m.nr)
    (hrow : ∀ row ∈ m.data, row.length = m.nc)
    (hx : -(3/2) < x) (hy : -(3/2) < y) :
    (∃ v, samplePix m x y true = some v) ∧
      (0 ≤ trunc (x + 1/2) → trunc (x + 1/2) < (m.nc : ℤ) →
        0 ≤ trunc (y + 1/2) → trunc (y + 1/2) < (m.nr : ℤ) →
        ∃ v, samplePix m x y false = some v) := by
  have hx0 : 0 ≤ trunc (x + 1/2) := trunc_nonneg _ (by linarith)
  have hy0 : 0 ≤ trunc (y + 1/2) := trunc_nonneg _ (by linarith)
  constructor
  · have hwxL0 : 0 ≤ (interpWindow m.nc x).1 := by
      simp only [interpWindow]
      omega
    have hwxLlt : (interpWindow m.nc x).1 < (m.nc : ℤ) := by
      simp only [interpWindow]
      omega
    have hwxH0 : 0 ≤ (interpWindow m.nc x).2.1 := by
      simp only [interpWindow]
      omega
    have hwxHlt : (interpWindow m.nc x).2.1 < (m.nc : ℤ) := by
      simp only [interpWindow]
      omega
    have hwyL0 : 0 ≤ (interpWindow m.nr y).1 := by
      simp only [interpWindow]
      omega
    have hwyLlt : (interpWindow m.nr y).1 < (m.nr : ℤ) := by
      simp only [interpWindow]
      omega
    have hwyH0 : 0 ≤ (interpWindow m.nr y).2.1 := by
      simp only [interpWindow]
      omega
    have hwyHlt : (interpWindow m.nr y).2.1 < (m.nr : ℤ) := by
      simp only [interpWindow]
      omega
    obtain ⟨rowL, hrowL, hrowLm⟩ :=
      pyGet_isSome_of m.data (interpWindow m.nr y).1 hwyL0 (by rw [hd]; exact hwyLlt)
    obtain ⟨rowH, hrowH, hrowHm⟩ :=
      pyGet_isSome_of m.data (interpWindow m.nr y).2.1 hwyH0 (by rw [hd]; exact hwyHlt)
    obtain ⟨z11, hz11, -⟩ := pyGet_isSome_of rowL (interpWindow m.nc x).1 hwxL0
      (by rw [hrow rowL hrowLm]; exact hwxLlt)
    obtain ⟨z12, hz12, -⟩ := pyGet_isSome_of rowL (interpWindow m.nc x).2.1 hwxH0
      (by rw [hrow rowL hrowLm]; exact hwxHlt)
    obtain ⟨z21, hz21, -⟩ := pyGet_isSome_of rowH (interpWindow m.nc x).1 hwxL0
      (by rw [hrow rowH hrowHm]; exact hwxLlt)
    obtain ⟨z22, hz22, -⟩ := pyGet_isSome_of rowH (interpWindow m.nc x).2.1 hwxH0
      (by rw [hrow rowH hrowHm]; exact hwxHlt)
    have g11 : getPix m.data (interpWindow m.nr y).1 (interpWindow m.nc x).1 = some z11 := by
      unfold getPix
      rw [hrowL]
      exact hz11
    have g12 : getPix m.data (interpWindow m.nr y).1 (interpWindow m.nc x).2.1 = some z12 := by
      unfold getPix
      rw [hrowL]
      exact hz12
    have g21 : getPix m.data (interpWindow m.nr y).2.1 (interpWindow m.nc x).1 = some z21 := by
      unfold getPix
      rw [hrowH]
      exact hz21
    have g22 : getPix m.data (interpWindow m.nr y).2.1 (interpWindow m.nc x).2.1 = some z22 := by
      unfold getPix
      rw [hrowH]
      exact hz22
    refine ⟨interp1D (interp1D z11 z12 (interpWindow m.nc x).2.2)
      (interp1D z21 z22 (interpWindow m.nc x).2.2) (interpWindow m.nr y).2.2, ?_⟩
    simp [samplePix, g11, g12, g21, g22]
  · intro hix0 hixlt hiy0 hiylt
    obtain ⟨row, hrowEq, hrowMem⟩ :=
      pyGet_isSome_of m.data (trunc (y + 1/2)) hiy0 (by rw [hd]; exact hiylt)
    obtain ⟨v, hv, -⟩ := pyGet_isSome_of row (trunc (x + 1/2)) hix0
      (by rw [hrow row hrowMem]; exact hixlt)
    refine ⟨v, ?_⟩
    show getPix m.data (trunc (y + 1/2)) (trunc (x + 1/2)) = some v
    unfold getPix
    rw [hrowEq]
    exact hv

/-- C5 witness: on the concrete 2x2 map `map0` at pixel `(0, 0)` both the
bilinear and (with the rounded indices in range) the nearest-pixel sample
succeed. -/
theorem samplePix_clamping_witness :
    (∃ v, samplePix map0 0 0 true = some v) ∧
      (0 ≤ trunc ((0:ℚ) + 1/2) → trunc ((0:ℚ) + 1/2) < (map0.nc : ℤ) →
        0 ≤ trunc ((0:ℚ) + 1/2) → trunc ((0:ℚ) + 1/2) < (map0.nr : ℤ) →
        ∃ v, samplePix map0 0 0 false = some v) :=
  samplePix_clamping map0 0 0 (by norm_num [map0]) (by norm_num [map0])
    (by rfl) (by decide) (by norm_num) (by norm_num)

/-! ### Exactness at integer grid points -/

theorem trunc_natCast_add_half (k : ℕ) : trunc ((k : ℚ) + 1/2) = (k : ℤ) := by
  unfold trunc
  rw [if_pos (by positivity)]
  rw [Int.floor_eq_iff]
  constructor
  · push_cast
    linarith
  · push_cast
    linarith

theorem pyGet_eq_getD {α : Type} (l : List α) (i : ℤ) (d : α) (h0 : 0 ≤ i)
    (h1 : i < (l.length : ℤ)) : pyGet l i = some (l.getD i.toNat d) := by
  unfold pyGet
  rw [if_pos h0]
  have hlt : i.toNat < l.length := by omega
  rw [List.getElem?_eq_getElem hlt, List.getD_eq_getElem _ _ hlt]

theorem pyGet_isSome_wrap {α : Type} (l : List α) (i : ℤ)
    (h0 : i < 0) (h1 : 0 ≤ i + (l.length : ℤ)) :
    ∃ a, pyGet l i = some a ∧ a ∈ l := by
  unfold pyGet
  rw [if_neg (by omega), if_pos (by exact_mod_cast h1)]
  have hlt : (i + l.length).toNat < l.length := by omega
  exact ⟨_, by rw [List.getElem?_eq_getElem hlt], List.getElem_mem hlt⟩

theorem getD_mem_of_lt {α : Type} (l : List α) (k : ℕ) (d : α)
    (h : k < l.length) : l.getD k d ∈ l := by
  rw [List.getD_eq_getElem _ _ h]
  exact List.getElem_mem h

/-- Along one axis, the interpolation window at an exact integer grid
coordinate `k < n` always reads two valid entries, and the fractional offset
is `0` with the low entry at `k` (interior) or `1` with the high entry at `k`
(clamped upper edge). -/
theorem windowSelect {α : Type} (l : List α) (n k : ℕ) (d : α)
    (hl : l.length = n) (hk : k < n) :
    ∃ a1 a2, pyGet l (interpWindow n (k : ℚ)).1 = some a1 ∧
      pyGet l (interpWindow n (k : ℚ)).2.1 = some a2 ∧ a1 ∈ l ∧ a2 ∈ l ∧
      (((interpWindow n (k : ℚ)).2.2 = 0 ∧ a1 = l.getD k d) ∨
       ((interpWindow n (k : ℚ)).2.2 = 1 ∧ a2 = l.getD k d)) := by
  have htr : trunc ((k : ℚ) + 1/2) = (k : ℤ) := trunc_natCast_add_half k
  have hll : (l.length : ℤ) = (n : ℤ) := by exact_mod_cast hl
  by_cases hcase : (k : ℤ) ≤ (n : ℤ) - 2
  · have hL : (interpWindow n (k : ℚ)).1 = (k : ℤ) := by
      simp only [interpWindow, htr]
      omega
    have hH : (interpWindow n (k : ℚ)).2.1 = ((k + 1 : ℕ) : ℤ) := by
      simp only [interpWindow, htr]
      omega
    have hd0 : (interpWindow n (k : ℚ)).2.2 = 0 := by
      simp only [interpWindow, htr]
      rw [min_eq_left hcase]
      push_cast
      ring
    refine ⟨l.getD k d, l.getD (k + 1) d, ?_, ?_,
      getD_mem_of_lt _ _ _ (by omega), getD_mem_of_lt _ _ _ (by omega),
      Or.inl ⟨hd0, rfl⟩⟩
    · rw [hL]
      simpa using pyGet_eq_getD l (k : ℤ) d (by omega) (by omega)
    · rw [hH]
      simpa using pyGet_eq_getD l ((k + 1 : ℕ) : ℤ) d (by omega) (by omega)
  · have hkz : (k : ℤ) = (n : ℤ) - 1 := by omega
    have hL : (interpWindow n (k : ℚ)).1 = (n : ℤ) - 2 := by
      simp only [interpWindow, htr]
      omega
    have hH : (interpWindow n (k : ℚ)).2.1 = ((k : ℕ) : ℤ) := by
      simp only [interpWindow, htr]
      omega
    have hd1 : (interpWindow n (k : ℚ)).2.2 = 1 := by
      simp only [interpWindow, htr]
      rw [min_eq_right (by omega)]
      have hkq : (k : ℚ) = (n : ℚ) - 1 := by exact_mod_cast hkz
      push_cast
      linarith
    have ha1 : ∃ a1, pyGet l ((n : ℤ) - 2) = some a1 ∧ a1 ∈ l := by
      by_cases h2 : 2 ≤ n
      · obtain ⟨a, ha, ham⟩ := pyGet_isSome_of l ((n : ℤ) - 2) (by omega) (by omega)
        exact ⟨a, ha, ham⟩
      · obtain ⟨a, ha, ham⟩ := pyGet_isSome_wrap l ((n : ℤ) - 2) (by omega) (by omega)
        exact ⟨a, ha, ham⟩
    obtain ⟨a1, ha1eq, ha1m⟩ := ha1
    refine ⟨a1, l.getD k d, ?_, ?_, ha1m,
      getD_mem_of_lt _ _ _ (by omega), Or.inr ⟨hd1, rfl⟩⟩
    · rw [hL]
      exact ha1eq
    · rw [hH]
      simpa using pyGet_eq_getD l ((k : ℕ) : ℤ) d (by omega) (by omega)

/-- Column-interpolation of one row at an exact integer column `j` reproduces
the stored entry `row[j]` exactly. -/
theorem windowEvalRow (r : List ℚ) (n j : ℕ) (hr : r.length = n) (hj : j < n) :
    ∃ z1 z2, pyGet r (interpWindow n (j : ℚ)).1 = some z1 ∧
      pyGet r (interpWindow n (j : ℚ)).2.1 = some z2 ∧
      interp1D z1 z2 (interpWindow n (j : ℚ)).2.2 = r.getD j 0 := by
  obtain ⟨z1, z2, h1, h2, -, -, hcase⟩ := windowSelect r n j 0 hr hj
  refine ⟨z1, z2, h1, h2, ?_⟩
  rcases hcase with ⟨hd0, hv⟩ | ⟨hd1, hv⟩
  · rw [hd0, ← hv]
    unfold interp1D
    ring
  · rw [hd1, ← hv]
    unfold interp1D
    ring

/-- C6: bilinear sampling at an exact integer grid point `(col j, row i)`
returns the stored sample `grid[i][j]` exactly, with zero interpolation
error (at the clamped last row/column the offset becomes `1` and the linear
interpolation still reproduces the stored sample exactly). -/
theorem samplePix_gridpoint (m : EBVmap) (i j : ℕ)
    (hd : m.data.length = m.nr)
    (hrow : ∀ row ∈ m.data, row.length = m.nc)
    (hi : i < m.nr) (hj : j < m.nc) :
    samplePix m (j : ℚ) (i : ℚ) true = some ((m.data.getD i []).getD j 0) := by
  obtain ⟨r1, r2, hr1, hr2, hm1, hm2, hrowcase⟩ := windowSelect m.data m.nr i [] hd hi
  obtain ⟨z11, z12, hz11, hz12, hX1⟩ := windowEvalRow r1 m.nc j (hrow r1 hm1) hj
  obtain ⟨z21, z22, hz21, hz22, hX2⟩ := windowEvalRow r2 m.nc j (hrow r2 hm2) hj
  have g11 : getPix m.data (interpWindow m.nr (i : ℚ)).1 (interpWindow m.nc (j : ℚ)).1 =
      some z11 := by
    unfold getPix
    rw [hr1]
    exact hz11
  have g12 : getPix m.data (interpWindow m.nr (i : ℚ)).1 (interpWindow m.nc (j : ℚ)).2.1 =
      some z12 := by
    unfold getPix
    rw [hr1]
    exact hz12
  have g21 : getPix m.data (interpWindow m.nr (i : ℚ)).2.1 (interpWindow m.nc (j : ℚ)).1 =
      some z21 := by
    unfold getPix
    rw [hr2]
    exact hz21
  have g22 : getPix m.data (interpWindow m.nr (i : ℚ)).2.1 (interpWindow m.nc (j : ℚ)).2.1 =
      some z22 := by
    unfold getPix
    rw [hr2]
    exact hz22
  have hres : samplePix m (j : ℚ) (i : ℚ) true =
      some (interp1D (interp1D z11 z12 (interpWindow m.nc (j : ℚ)).2.2)
        (interp1D z21 z22 (interpWindow m.nc (j : ℚ)).2.2)
        (interpWindow m.nr (i : ℚ)).2.2) := by
    simp [samplePix, g11, g12, g21, g22]
  rw [hres, hX1, hX2]
  rcases hrowcase with ⟨hd0, hv⟩ | ⟨hd1, hv⟩
  · rw [hd0, ← hv]
    unfold interp1D
    ring_nf
  · rw [hd1, ← hv]
    unfold interp1D
    ring_nf

/-- C6 witness: at the clamped corner grid point `(1, 1)` of the concrete 2x2
map `map0`, bilinear sampling returns the stored entry `4` exactly. -/
theorem samplePix_gridpoint_witness :
    samplePix map0 1 1 true = some ((map0.data.getD 1 []).getD 1 0) :=
  samplePix_gridpoint map0 1 1 rfl (by decide) (by decide) (by decide)

/-! ### The pole scenario -/

/-- Synthetic 4x4 map of the pole scenario: identity linear transform,
reference pixel `(2, 2)`, reference sky position `(0, 90)`, `lonpole = 180`,
north-hemisphere flag set. -/
def mapPole (g : List (List ℚ)) : EBVmap :=
  { data := g, nr := 4, nc := 4
    cd11 := 1, cd22 := 1, cd12 := 0, cd21 := 0
    crpix1 := 2, crval1 := 0, crpix2 := 2, crval2 := 90
    nsgp := 1, scale := 1, lonpole := 180 }

/-- C9: on the synthetic pole map, the sky position `longitude = 0`,
`latitude = π/2` projects to pixel `(x, y) = (1, 1)`, and nearest-pixel
sampling at `(1, 1)` returns `grid[1][1]` exactly. -/
theorem xyFromSky_pole (g : List (List ℚ)) (h4 : g.length = 4)
    (hrow : ∀ row ∈ g, row.length = 4) :
    xyFromSky (mapPole g) 0 (Real.pi / 2) = (1, 1) ∧
      samplePix (mapPole g) 1 1 false = some ((g.getD 1 []).getD 1 0) := by
  have hpi : Real.pi ≠ 0 := Real.pi_ne_zero
  have h90 : Real.pi / 2 * (180 / Real.pi) = 90 := by
    field_simp
    ring
  have hpr : projPlane (mapPole g) 0 (Real.pi / 2) = (0, 0) := by
    unfold projPlane
    simp only [mapPole]
    split
    next hcond =>
      rw [h90]
      norm_num [Real.sin_zero]
    next hcond =>
      exact absurd (by norm_num : ((90 : ℚ) : ℝ) > 89.9999) hcond
  constructor
  · unfold xyFromSky
    rw [hpr]
    simp only [mapPole]
    norm_num
  · have h1 : trunc ((1:ℚ) + 1/2) = 1 := by norm_num [trunc]
    have hg1 : pyGet g (1 : ℤ) = some (g.getD 1 []) := by
      simpa using pyGet_eq_getD g 1 [] (by omega) (by rw [h4]; omega)
    have hmem : g.getD 1 [] ∈ g := getD_mem_of_lt _ _ _ (by omega)
    have hlen : (g.getD 1 []).length = 4 := hrow _ hmem
    have hg2 : pyGet (g.getD 1 []) (1 : ℤ) = some ((g.getD 1 []).getD 1 0) := by
      simpa using pyGet_eq_getD (g.getD 1 []) 1 0 (by omega) (by rw [hlen]; omega)
    show getPix (mapPole g).data (trunc ((1:ℚ) + 1/2)) (trunc ((1:ℚ) + 1/2)) = _
    rw [h1]
    unfold getPix
    show (pyGet g (1 : ℤ)).bind (fun row => pyGet row (1 : ℤ)) = _
    rw [hg1]
    exact hg2

/-- C9 witness: the pole scenario on a concrete 4x4 grid, where
`grid[1][1] = 6`. -/
theorem xyFromSky_pole_witness :
    xyFromSky (mapPole [[1,2,3,4],[5,6,7,8],[9,10,11,12],[13,14,15,16]]) 0
        (Real.pi / 2) = (1, 1) ∧
      samplePix (mapPole [[1,2,3,4],[5,6,7,8],[9,10,11,12],[13,14,15,16]]) 1 1 false =
        some ((([[1,2,3,4],[5,6,7,8],[9,10,11,12],[13,14,15,16]] :
          List (List ℚ)).getD 1 []).getD 1 0) :=
  xyFromSky_pole [[1,2,3,4],[5,6,7,8],[9,10,11,12],[13,14,15,16]] (by decide) (by decide)

end EBV
